import Mathlib

/-!
Verification development for the Gmail-MCP mailbox session engine
(`ImapService` and its callers).  The TypeScript source is embedded
shallowly: pure helpers become Lean functions, JavaScript string/number
coercions are modelled explicitly (`jsTruthy`, `jsParseInt10`, ...), and
the event-driven IMAP transport, the MIME decoder (`simpleParser`), the
JS regular-expression engine and the filesystem are modelled as an
explicit environment of total functions whose observable calls are
recorded as an `Effect` trace.
-/

namespace GmailMcp

/-! ## JavaScript semantics helpers -/

/-- Whitespace characters skipped by JavaScript `parseInt`. -/
def jsIsSpace (c : Char) : Bool :=
  c = ' ' || c = '\t' || c = '\n' || c = '\r' || c = '\x0b' || c = '\x0c'

/-- Value of a base-10 digit string. -/
def digitsVal (ds : List Char) : Nat :=
  ds.foldl (fun acc c => acc * 10 + (c.toNat - '0'.toNat)) 0

/-- `Number.parseInt(s, 10)`: skip leading whitespace, optional sign,
then the longest leading run of base-10 digits; `none` models `NaN`. -/
def jsParseInt10 (s : String) : Option Int :=
  let cs := s.data.dropWhile jsIsSpace
  let signRest : Int × List Char :=
    match cs with
    | '+' :: r => (1, r)
    | '-' :: r => (-1, r)
    | r => (1, r)
  let ds := signRest.2.takeWhile Char.isDigit
  if ds.isEmpty then none else some (signRest.1 * (digitsVal ds : Int))

/-- The shared uid-validation idiom
`Number.isFinite(parsed) && parsed > 0 ? parsed : null`
applied to `Number.parseInt(id, 10)`. -/
def parsePositiveUid (s : String) : Option Nat :=
  match jsParseInt10 s with
  | none => none
  | some v => if 0 < v then some v.toNat else none

/-- JavaScript truthiness of an optional string (`undefined` and `''`
are falsy). -/
def jsTruthy : Option String → Bool
  | some s => !(s == "")
  | none => false

/-- `x || undefined` for an optional string. -/
def jsNonEmpty : Option String → Option String
  | some s => if s == "" then none else some s
  | none => none

/-- `x || d` for an optional string `x` and default `d`. -/
def jsOrStr (o : Option String) (d : String) : String :=
  match o with
  | some s => if s == "" then d else s
  | none => d

/-- Boolean infix test on character lists (JS `String.prototype.includes`). -/
def listHasInfix (needle : List Char) : List Char → Bool
  | [] => needle.isEmpty
  | c :: rest => needle.isPrefixOf (c :: rest) || listHasInfix needle rest

/-- JS `hay.includes(needle)`. -/
def strIncludes (hay needle : String) : Bool :=
  listHasInfix needle.data hay.data

/-- JS `s.startsWith(p)`. -/
def jsStartsWith (s p : String) : Bool :=
  p.data.isPrefixOf s.data

/-- JS `s.endsWith(p)`. -/
def jsEndsWith (s p : String) : Bool :=
  p.data.isSuffixOf s.data

/-- JS `s.toLowerCase()` (ASCII case folding). -/
def jsToLower (s : String) : String :=
  ⟨s.data.map Char.toLower⟩

/-- JS `s.slice(0, -n)`: drop the last `n` characters. -/
def jsDropRight (s : String) (n : Nat) : String :=
  ⟨s.data.take (s.data.length - n)⟩

/-- JS `s.slice(1, -1)`: drop the first and last characters. -/
def jsSliceInner (s : String) : String :=
  ⟨(s.data.drop 1).dropLast⟩

/-- JS `s.trim()`: strip leading and trailing whitespace. -/
def jsTrim (s : String) : String :=
  ⟨((s.data.dropWhile jsIsSpace).reverse.dropWhile jsIsSpace).reverse⟩

/-! ## Data model

`JsBuffer` models a Node `Buffer`: its byte content plus the string view
produced by `buf.toString('utf8')` (the UTF-8 decoding is a runtime
primitive of Node, carried here as data alongside the bytes). -/

structure JsBuffer where
  bytes : List Nat
  utf8 : String
deriving DecidableEq, Repr

/-- Identifier kind: store-local numeric handle (`'uid'`) or
cross-session address (`'message-id'`). -/
inductive IdType
  | messageId
  | uid
deriving DecidableEq, Repr

/-- A decoded attachment entry as produced by `simpleParser`
(mailparser `Attachment`). -/
structure Attachment where
  filename : Option String
  contentType : Option String
  content : JsBuffer
  size : Option Nat
  contentDisposition : Option String
  cid : Option String
deriving DecidableEq, Repr

/-- mailparser address field: a single address object or an array of
them; each carries its rendered `text`. -/
inductive AddrField
  | single (text : String)
  | many (texts : List String)
deriving DecidableEq, Repr

/-- Structured result of `simpleParser` (the fields this engine reads).
`html = none` models mailparser's `html: false`; `date` carries the
already-rendered ISO string of `date.toISOString()`. -/
structure ParsedMail where
  attachments : List Attachment := []
  subject : Option String := none
  fromAddr : Option AddrField := none
  toAddr : Option AddrField := none
  date : Option String := none
  messageId : Option String := none
  html : Option String := none
  text : Option String := none
  textAsHtml : Option String := none
deriving DecidableEq, Repr

/-- `AttachmentFilterParams` from types.ts. -/
structure AttachmentFilterParams where
  name : Option String := none
  nameContains : Option String := none
  nameRegex : Option String := none
  nameRegexFlags : Option String := none
  mimeTypes : Option (List String) := none
deriving DecidableEq, Repr

/-- `AttachmentResult` from types.ts. -/
structure AttachmentResult where
  filename : Option String := none
  contentType : String
  size : Nat
  contentDisposition : Option String := none
  contentId : Option String := none
  savedTo : Option String := none
  inlineContent : Option String := none
deriving DecidableEq, Repr

/-- `MessageAttachmentsResult` from types.ts. -/
structure MessageAttachmentsResult where
  id : String
  idType : IdType
  mailbox : String
  found : Bool
  uid : Option String := none
  attachments : List AttachmentResult := []
  error : Option String := none
deriving DecidableEq, Repr

/-- `AttachmentMeta` from types.ts. -/
structure AttachmentMeta where
  filename : Option String := none
  contentType : String
  size : Nat
  contentDisposition : Option String := none
  contentId : Option String := none
deriving DecidableEq, Repr

/-- `MessagePeekResult` from types.ts. -/
structure MessagePeekResult where
  id : String
  idType : IdType
  mailbox : String
  found : Bool
  uid : Option String := none
  subject : Option String := none
  fromField : Option String := none
  toField : Option String := none
  date : Option String := none
  messageId : Option String := none
  hasHtml : Option Bool := none
  hasText : Option Bool := none
  htmlSize : Option Nat := none
  textSize : Option Nat := none
  attachmentCount : Nat := 0
  attachments : List AttachmentMeta := []
  error : Option String := none
deriving DecidableEq, Repr

/-- Requested body representation for `getMessageContent`. -/
inductive MsgFormat
  | html
  | text
  | raw
deriving DecidableEq, Repr

/-- `MessageContentResult` from types.ts. -/
structure MessageContentResult where
  id : String
  format : MsgFormat
  body : String
  mailbox : String
  rawFilePath : Option String := none
  rawSize : Option Nat := none
  hasHtml : Option Bool := none
  hasText : Option Bool := none
deriving DecidableEq, Repr

/-- `messageIds: string | string[]`. -/
inductive StrOrList
  | one (s : String)
  | many (l : List String)
deriving DecidableEq, Repr

/-- `normalizeMessageIds`. -/
def normalizeMessageIds : StrOrList → List String
  | .one s => [s]
  | .many l => l

/-! ## Pure helpers of ImapService -/

/-- `buildMessageIdCandidates`: bracket-normalization of an address-kind
identifier. -/
def buildMessageIdCandidates (messageId : String) : List String :=
  let trimmed := jsTrim messageId
  if trimmed == "" then []
  else if jsStartsWith trimmed "<" && jsEndsWith trimmed ">" then
    let stripped := jsSliceInner trimmed
    if stripped == "" then [trimmed] else [trimmed, stripped]
  else ["<" ++ trimmed ++ ">", trimmed]

/-- `shouldInlineTextAttachment`: placement policy for a matched
attachment (inline vs. materialize). -/
def shouldInlineTextAttachment (contentType : String) (content : JsBuffer) : Bool :=
  let normalized := jsToLower contentType
  let isText := jsStartsWith normalized "text/"
  let isMarkdown := jsStartsWith normalized "text/markdown" ||
    jsStartsWith normalized "text/x-markdown" || jsStartsWith normalized "text/md"
  let isOtherInline :=
    normalized == "application/json" ||
    normalized == "application/xml" ||
    normalized == "text/xml" ||
    normalized == "application/yaml" ||
    normalized == "application/x-yaml"
  if !isText && !isMarkdown && !isOtherInline then false
  else content.utf8.length < 1000

/-- `filename.replace(/[\\\/]/g, '_')`. -/
def sanitizeName (s : String) : String :=
  ⟨s.data.map (fun c => if c = '/' || c = '\\' then '_' else c)⟩

/-- `buildAttachmentPredicate`: compiles an optional filter into a
predicate over attachments; an invalid `nameRegex` aborts construction.
The JS regular-expression engine is the external parameter
`regexCompile` (pattern → flags → `none` on compile failure, otherwise
the compiled test). -/
def buildAttachmentPredicate (regexCompile : String → String → Option (String → Bool))
    (filter : Option AttachmentFilterParams) :
    Except String (Attachment → Bool) :=
  match filter with
  | none => .ok fun _ => true
  | some f =>
    let rxStep : Except String (Option (String → Bool)) :=
      if jsTruthy f.nameRegex then
        match regexCompile (f.nameRegex.getD "") (jsOrStr f.nameRegexFlags "") with
        | none => .error "Invalid nameRegex"
        | some t => .ok (some t)
      else .ok none
    match rxStep with
    | .error e => .error e
    | .ok nameRegex =>
      let normalizedName := f.name.map jsToLower
      let normalizedContains := f.nameContains.map jsToLower
      let normalizedMimeTypes := (f.mimeTypes.getD []).map jsToLower
      .ok fun attachment =>
        let nameBlock :=
          if jsTruthy normalizedName || jsTruthy normalizedContains || nameRegex.isSome then
            let filename := jsOrStr attachment.filename ""
            let lowerFilename := jsToLower filename
            if jsTruthy normalizedName && !(lowerFilename == normalizedName.getD "") then
              false
            else if jsTruthy normalizedContains &&
                !(strIncludes lowerFilename (normalizedContains.getD "")) then
              false
            else if nameRegex.isSome && !((nameRegex.getD fun _ => false) filename) then
              false
            else true
          else true
        if !nameBlock then false
        else if normalizedMimeTypes.length > 0 then
          let contentType := jsOrStr (attachment.contentType.map jsToLower) ""
          normalizedMimeTypes.any fun mime =>
            if jsEndsWith mime "/*" then jsStartsWith contentType (jsDropRight mime 2)
            else contentType == mime
        else true

/-! ## Transport events and effects -/

deriving instance DecidableEq for Except

/-- A body-data chunk delivered by the fetch stream: a Node `Buffer` or
any other byte sequence (e.g. `Uint8Array`); `Buffer.from` on a byte
sequence copies it byte-for-byte. -/
inductive Chunk
  | buf (bytes : List Nat)
  | nonbuf (bytes : List Nat)
deriving DecidableEq, Repr

/-- `Buffer.isBuffer(chunk) ? chunk : Buffer.from(chunk)`. -/
def Chunk.toBytes : Chunk → List Nat
  | .buf b => b
  | .nonbuf b => b

/-- Events emitted by one fetch exchange, in delivery order: `message`
(one per matching message, carrying its body chunks), then a terminal
`error` or `end`. -/
inductive FetchEvent
  | message (chunks : List Chunk)
  | fetchError (msg : String)
  | fetchEnd
deriving DecidableEq, Repr

/-- Mutable state of the `fetchRawByUid` promise executor. -/
structure FetchSt where
  chunks : List (List Nat)
  found : Bool
  settled : Option (Except String (List Nat))
deriving DecidableEq, Repr

/-- One event-handler step of `fetchRawByUid`; once the promise has
settled, further events no longer change the outcome. -/
def fetchStep (uid : Nat) (st : FetchSt) (ev : FetchEvent) : FetchSt :=
  match st.settled with
  | some _ => st
  | none =>
    match ev with
    | .message cs =>
      { st with found := true, chunks := st.chunks ++ cs.map Chunk.toBytes }
    | .fetchError e => { st with settled := some (.error e) }
    | .fetchEnd =>
      if !st.found then
        { st with settled := some (.error s!"Message not found for UID: {uid}") }
      else
        { st with settled := some (.ok st.chunks.flatten) }

/-- `fetchRawByUid` as a fold of its event handlers over the delivered
event trace; `none` means the promise never settled. -/
def fetchRawByUid (uid : Nat) (events : List FetchEvent) :
    Option (Except String (List Nat)) :=
  (events.foldl (fetchStep uid) ⟨[], false, none⟩).settled

/-- Settled outcome of one fetch exchange, as consumed by the
orchestrators: terminal error event, or end with the found flag and the
accumulated raw bytes. -/
inductive FetchOutcome
  | fetchErr (msg : String)
  | done (found : Bool) (raw : JsBuffer)
deriving DecidableEq, Repr

/-- Observable calls the engine makes against the store / filesystem. -/
inductive Effect
  | connect
  | openBox (mailbox : String) (readonly : Bool)
  | search (header : String) (value : String)
  | fetch (uids : List Nat) (bodies : String) (strct : Bool) (markSeen : Bool)
  | writeFile (path : String) (data : List Nat)
  | closeConn
deriving DecidableEq, Repr

/-- Environment of external collaborators: connection / mailbox-open
outcomes, the header-search primitive, settled fetch outcomes per uid,
the MIME decoder, the JS regex engine, the random token generator
(indexed by how many tokens were drawn before) and the filesystem write
(`some e` = failure `e`).  `htmlToText` stands for the regex-based
best-effort converter of the source (JS regex engine, external). -/
structure Env where
  regexCompile : String → String → Option (String → Bool)
  connectErr : Option String
  openBoxErr : Option String
  search : String → Except String (List Nat)
  fetchRes : Nat → FetchOutcome
  parse : List Nat → Except String ParsedMail
  htmlToText : String → String
  token : Nat → String
  write : String → List Nat → Option String

/-! ## Identifier resolution -/

/-- The candidate loop of `resolveUidForMessageId`: one `MESSAGE-ID`
header search per candidate, in order, stopping at the first candidate
with at least one match. -/
def resolveCandidates (search : String → Except String (List Nat)) :
    List String → Except String (Option Nat) × List Effect
  | [] => (.ok none, [])
  | c :: rest =>
    match search c with
    | .error e => (.error e, [.search "MESSAGE-ID" c])
    | .ok [] =>
      let r := resolveCandidates search rest
      (r.1, .search "MESSAGE-ID" c :: r.2)
    | .ok (u :: _) => (.ok (some u), [.search "MESSAGE-ID" c])

/-- `resolveUidForMessageId`. -/
def resolveUidForMessageId (search : String → Except String (List Nat))
    (messageId : String) : Except String (Option Nat) × List Effect :=
  resolveCandidates search (buildMessageIdCandidates messageId)

/-! ## Materialization -/

/-- `writeAttachmentToTemp`: random token, path-separator sanitization,
write to the temp directory; returns the path.  The token counter
models successive draws of `randomBytes`. -/
def writeAttachmentToTemp (env : Env) (ctr : Nat) (content : JsBuffer)
    (filename uidStr : String) : Except String String × List Effect × Nat :=
  let token := env.token ctr
  let safeName :=
    let r := sanitizeName filename
    if r == "" then s!"attachment-{uidStr}-{token}" else r
  let filePath := "/tmp/" ++ token ++ "-" ++ safeName
  match env.write filePath content.bytes with
  | some e => (.error e, [.writeFile filePath content.bytes], ctr + 1)
  | none => (.ok filePath, [.writeFile filePath content.bytes], ctr + 1)

/-- `writeRawToTemp`. -/
def writeRawToTemp (env : Env) (ctr : Nat) (raw : JsBuffer) (uid : Nat) :
    Except String (String × Nat) × List Effect × Nat :=
  let token := env.token ctr
  let filename := s!"message-{uid}-{token}.eml"
  let filePath := "/tmp/" ++ filename
  match env.write filePath raw.bytes with
  | some e => (.error e, [.writeFile filePath raw.bytes], ctr + 1)
  | none => (.ok (filePath, raw.bytes.length), [.writeFile filePath raw.bytes], ctr + 1)

/-! ## downloadAttachments -/

/-- Per-attachment body of the materialization loop in
`downloadAttachments`: inline small text-like content, otherwise write
to temp; a write failure surfaces as the thrown error. -/
def processAttachment (env : Env) (uidN : Nat) (ctr : Nat) (att : Attachment) :
    Except String AttachmentResult × List Effect × Nat :=
  let content := att.content
  let contentType := jsOrStr att.contentType "application/octet-stream"
  let size := att.size.getD content.bytes.length
  let effectiveName := jsOrStr att.filename s!"attachment-{uidN}"
  if shouldInlineTextAttachment contentType content then
    (.ok { filename := some effectiveName, contentType := contentType, size := size,
           contentDisposition := jsNonEmpty att.contentDisposition,
           contentId := jsNonEmpty att.cid,
           inlineContent := some content.utf8 }, [], ctr)
  else
    match writeAttachmentToTemp env ctr content effectiveName (toString uidN) with
    | (.error e, effs, c) => (.error e, effs, c)
    | (.ok path, effs, c) =>
      (.ok { filename := some effectiveName, contentType := contentType, size := size,
             contentDisposition := jsNonEmpty att.contentDisposition,
             contentId := jsNonEmpty att.cid,
             savedTo := some path }, effs, c)

/-- The `for (const attachment of attachments)` loop: the first failing
write aborts the loop with that error (caught by the per-identifier
handler). -/
def processAttachmentsLoop (env : Env) (uidN : Nat) :
    Nat → List Attachment →
    Except String (List AttachmentResult) × List Effect × Nat
  | ctr, [] => (.ok [], [], ctr)
  | ctr, att :: rest =>
    match processAttachment env uidN ctr att with
    | (.error e, effs, c) => (.error e, effs, c)
    | (.ok r, effs, c) =>
      match processAttachmentsLoop env uidN c rest with
      | (.error e, effs2, c2) => (.error e, effs ++ effs2, c2)
      | (.ok rs, effs2, c2) => (.ok (r :: rs), effs ++ effs2, c2)

/-- Failure Result Record pushed by the per-identifier catch handler. -/
def failRecord (id : String) (idType : IdType) (mailbox : String)
    (e : String) : MessageAttachmentsResult :=
  { id := id, idType := idType, mailbox := mailbox, found := false,
    attachments := [], error := some e }

/-- Result Record for an identifier that did not resolve. -/
def notFoundRecord (id : String) (idType : IdType) (mailbox : String) :
    MessageAttachmentsResult :=
  { id := id, idType := idType, mailbox := mailbox, found := false,
    attachments := [] }

/-- Fetch → decode → classify → materialize for one resolved uid in
`downloadAttachments`; any failure is caught into a failure record. -/
def processWithUid (env : Env) (pred : Attachment → Bool) (idType : IdType)
    (mailbox : String) (ctr : Nat) (id : String) (uidN : Nat) :
    MessageAttachmentsResult × List Effect × Nat :=
  let fetchEff := Effect.fetch [uidN] "" false false
  match env.fetchRes uidN with
  | .fetchErr e => (failRecord id idType mailbox e, [fetchEff], ctr)
  | .done false _ =>
    (failRecord id idType mailbox s!"Message not found for UID: {uidN}", [fetchEff], ctr)
  | .done true raw =>
    match env.parse raw.bytes with
    | .error e => (failRecord id idType mailbox e, [fetchEff], ctr)
    | .ok mail =>
      let atts := mail.attachments.filter pred
      match processAttachmentsLoop env uidN ctr atts with
      | (.error e, weffs, c) => (failRecord id idType mailbox e, fetchEff :: weffs, c)
      | (.ok processed, weffs, c) =>
        ({ id := id, idType := idType, mailbox := mailbox, found := true,
           uid := some (toString uidN), attachments := processed },
         fetchEff :: weffs, c)

/-- One iteration of the per-identifier loop of `downloadAttachments`:
resolve, then fetch/decode/classify, catching every failure into that
identifier's Result Record. -/
def processDownloadId (env : Env) (pred : Attachment → Bool) (idType : IdType)
    (mailbox : String) (ctr : Nat) (id : String) :
    MessageAttachmentsResult × List Effect × Nat :=
  match idType with
  | .uid =>
    match parsePositiveUid id with
    | none => (notFoundRecord id idType mailbox, [], ctr)
    | some uidN => processWithUid env pred idType mailbox ctr id uidN
  | .messageId =>
    match resolveUidForMessageId env.search id with
    | (.error e, effs) => (failRecord id idType mailbox e, effs, ctr)
    | (.ok none, effs) => (notFoundRecord id idType mailbox, effs, ctr)
    | (.ok (some uidN), effs) =>
      let r := processWithUid env pred idType mailbox ctr id uidN
      (r.1, effs ++ r.2.1, r.2.2)

/-- The whole per-identifier loop of `downloadAttachments`. -/
def downloadBatchLoop (env : Env) (pred : Attachment → Bool) (idType : IdType)
    (mailbox : String) :
    Nat → List String → List MessageAttachmentsResult × List Effect × Nat
  | ctr, [] => ([], [], ctr)
  | ctr, id :: rest =>
    let r := processDownloadId env pred idType mailbox ctr id
    let rs := downloadBatchLoop env pred idType mailbox r.2.2 rest
    (r.1 :: rs.1, r.2.1 ++ rs.2.1, rs.2.2)

/-- `downloadAttachments`: build the predicate (throwing before any
connection on an invalid regex), connect, open the mailbox read-only,
run the batch, close the connection, resolve. -/
def downloadAttachments (env : Env) (messageIds : StrOrList) (idType : IdType)
    (filter : Option AttachmentFilterParams) (mailbox : String) :
    Except String (List MessageAttachmentsResult) × List Effect :=
  let ids := normalizeMessageIds messageIds
  match buildAttachmentPredicate env.regexCompile filter with
  | .error e => (.error e, [])
  | .ok pred =>
    match env.connectErr with
    | some e => (.error e, [.connect])
    | none =>
      match env.openBoxErr with
      | some e => (.error e, [.connect, .openBox mailbox true])
      | none =>
        let r := downloadBatchLoop env pred idType mailbox 0 ids
        (.ok r.1, .connect :: .openBox mailbox true :: r.2.1 ++ [.closeConn])

/-! ## peekMessages -/

/-- The `formatAddress` helper inside `peekMessages`. -/
def formatAddress : Option AddrField → Option String
  | none => none
  | some (.single t) => if t == "" then none else some t
  | some (.many texts) =>
    let parts := texts.filter (fun t => !(t == ""))
    if parts.length > 0 then some (String.intercalate ", " parts) else none

/-- Attachment inventory entry built by `peekMessages` (indexed map over
the decoded attachment list). -/
def peekAttachmentMeta (uidN : Nat) (index : Nat) (att : Attachment) :
    AttachmentMeta :=
  { filename := some (jsOrStr att.filename s!"attachment-{uidN}-{index + 1}"),
    contentType := jsOrStr att.contentType "application/octet-stream",
    size := att.size.getD att.content.bytes.length,
    contentDisposition := jsNonEmpty att.contentDisposition,
    contentId := jsNonEmpty att.cid }

/-- `attachments.map((attachment, index) => ...)`. -/
def mapWithIndex (f : Nat → α → β) (l : List α) : List β :=
  (List.range l.length).zip l |>.map fun p => f p.1 p.2

/-- Failure record of the peek per-identifier catch handler. -/
def peekFailRecord (id : String) (idType : IdType) (mailbox : String)
    (e : String) : MessagePeekResult :=
  { id := id, idType := idType, mailbox := mailbox, found := false,
    attachmentCount := 0, attachments := [], error := some e }

/-- Record of a peek identifier that did not resolve. -/
def peekNotFoundRecord (id : String) (idType : IdType) (mailbox : String) :
    MessagePeekResult :=
  { id := id, idType := idType, mailbox := mailbox, found := false,
    attachmentCount := 0, attachments := [] }

/-- Fetch → decode → summarize for one resolved uid in `peekMessages`. -/
def peekWithUid (env : Env) (idType : IdType) (mailbox : String)
    (id : String) (uidN : Nat) : MessagePeekResult × List Effect :=
  let fetchEff := Effect.fetch [uidN] "" false false
  match env.fetchRes uidN with
  | .fetchErr e => (peekFailRecord id idType mailbox e, [fetchEff])
  | .done false _ =>
    (peekFailRecord id idType mailbox s!"Message not found for UID: {uidN}", [fetchEff])
  | .done true raw =>
    match env.parse raw.bytes with
    | .error e => (peekFailRecord id idType mailbox e, [fetchEff])
    | .ok mail =>
      let attachmentMeta := mapWithIndex (peekAttachmentMeta uidN) mail.attachments
      let htmlString := mail.html.getD ""
      let textString := mail.text.getD ""
      ({ id := id, idType := idType, mailbox := mailbox, found := true,
         uid := some (toString uidN),
         subject := jsNonEmpty mail.subject,
         fromField := formatAddress mail.fromAddr,
         toField := formatAddress mail.toAddr,
         date := mail.date,
         messageId := jsNonEmpty mail.messageId,
         hasHtml := some (jsTruthy mail.html),
         hasText := some (jsTruthy mail.text),
         htmlSize := some (if htmlString == "" then 0 else htmlString.length),
         textSize := some (if textString == "" then 0 else textString.length),
         attachmentCount := attachmentMeta.length,
         attachments := attachmentMeta }, [fetchEff])

/-- One iteration of the per-identifier loop of `peekMessages`. -/
def processPeekId (env : Env) (idType : IdType) (mailbox : String)
    (id : String) : MessagePeekResult × List Effect :=
  match idType with
  | .uid =>
    match parsePositiveUid id with
    | none => (peekNotFoundRecord id idType mailbox, [])
    | some uidN => peekWithUid env idType mailbox id uidN
  | .messageId =>
    match resolveUidForMessageId env.search id with
    | (.error e, effs) => (peekFailRecord id idType mailbox e, effs)
    | (.ok none, effs) => (peekNotFoundRecord id idType mailbox, effs)
    | (.ok (some uidN), effs) =>
      let r := peekWithUid env idType mailbox id uidN
      (r.1, effs ++ r.2)

/-- The whole per-identifier loop of `peekMessages`. -/
def peekBatchLoop (env : Env) (idType : IdType) (mailbox : String) :
    List String → List MessagePeekResult × List Effect
  | [] => ([], [])
  | id :: rest =>
    let r := processPeekId env idType mailbox id
    let rs := peekBatchLoop env idType mailbox rest
    (r.1 :: rs.1, r.2 ++ rs.2)

/-- `peekMessages`: connect, open the mailbox read-only, run the batch,
close the connection, resolve. -/
def peekMessages (env : Env) (messageIds : StrOrList) (idType : IdType)
    (mailbox : String) : Except String (List MessagePeekResult) × List Effect :=
  let ids := normalizeMessageIds messageIds
  match env.connectErr with
  | some e => (.error e, [.connect])
  | none =>
    match env.openBoxErr with
    | some e => (.error e, [.connect, .openBox mailbox true])
    | none =>
      let r := peekBatchLoop env idType mailbox ids
      (.ok r.1, .connect :: .openBox mailbox true :: r.2 ++ [.closeConn])

/-! ## getMessageContent -/

/-- Body selection of `finalize` for the non-raw formats. -/
def selectBody (env : Env) (format : MsgFormat) (parsed : ParsedMail) : String :=
  match format with
  | .html =>
    match parsed.html with
    | some h => h
    | none =>
      if jsTruthy parsed.textAsHtml then parsed.textAsHtml.getD ""
      else if jsTruthy parsed.text then parsed.text.getD ""
      else ""
  | _ =>
    if jsTruthy parsed.text then parsed.text.getD ""
    else
      match parsed.html with
      | some h => env.htmlToText h
      | none =>
        if jsTruthy parsed.textAsHtml then env.htmlToText (parsed.textAsHtml.getD "")
        else ""

/-- The `finalize` continuation of `getMessageContent`, run after the
fetch completed and the connection was ended. -/
def finalizeContent (env : Env) (id : String) (uidN : Nat) (format : MsgFormat)
    (saveRawToFile : Bool) (mailbox : String) (raw : JsBuffer) :
    Except String MessageContentResult × List Effect :=
  let step : Except String (String × Option Bool × Option Bool) :=
    match format with
    | .raw => .ok (raw.utf8, none, none)
    | _ =>
      match env.parse raw.bytes with
      | .error e => .error e
      | .ok parsed =>
        .ok (selectBody env format parsed,
             some (jsTruthy parsed.html), some (jsTruthy parsed.text))
  match step with
  | .error e => (.error e, [])
  | .ok (body, hasHtml, hasText) =>
    if saveRawToFile then
      match writeRawToTemp env 0 raw uidN with
      | (.error e, effs, _) => (.error e, effs)
      | (.ok (path, size), effs, _) =>
        (.ok { id := id, format := format, body := body, mailbox := mailbox,
               rawFilePath := some path, rawSize := some size,
               hasHtml := hasHtml, hasText := hasText }, effs)
    else
      (.ok { id := id, format := format, body := body, mailbox := mailbox,
             hasHtml := hasHtml, hasText := hasText }, [])

/-- `getMessageContent`: the single-identifier content path.  A
non-positive or non-numeric id throws before any connection is created;
the fetch never marks the message seen; the connection is ended when
the fetch's end event fires, before `finalize` runs. -/
def getMessageContent (env : Env) (id : String) (format : MsgFormat)
    (saveRawToFile : Bool) (mailbox : String) :
    Except String MessageContentResult × List Effect :=
  match parsePositiveUid id with
  | none => (.error s!"Invalid message id: {id}", [])
  | some uidN =>
    match env.connectErr with
    | some e => (.error e, [.connect])
    | none =>
      match env.openBoxErr with
      | some e => (.error e, [.connect, .openBox mailbox true])
      | none =>
        let base := [Effect.connect, .openBox mailbox true,
                     .fetch [uidN] "" false false]
        match env.fetchRes uidN with
        | .fetchErr e => (.error e, base)
        | .done found raw =>
          if !found then
            (.error s!"Message not found for id: {id}", base ++ [.closeConn])
          else
            let fin := finalizeContent env id uidN format saveRawToFile mailbox raw
            (fin.1, base ++ .closeConn :: fin.2)

/-! ## Derived notions used by the statements -/

/-- An effect is read-safe when any fetch it performs requests the full
raw body (`bodies: ''`) without marking the message seen, and any
mailbox open is read-only. -/
def Effect.readSafe : Effect → Bool
  | .fetch _ bodies _ markSeen => bodies == "" && !markSeen
  | .openBox _ readonly => readonly
  | _ => true

/-- Identifiers of the records of a batch outcome (`none` when the
operation rejected). -/
def resultIds : Except String (List MessageAttachmentsResult) → Option (List String)
  | .ok rs => some (rs.map (·.id))
  | .error _ => none

/-- Identifiers of the records of a peek outcome. -/
def peekResultIds : Except String (List MessagePeekResult) → Option (List String)
  | .ok rs => some (rs.map (·.id))
  | .error _ => none

/-- Exact-name clause, worded as in the spec: when an exact filename is
configured, the entry filename must equal it case-insensitively. -/
def specNameOk (f : AttachmentFilterParams) (att : Attachment) : Bool :=
  match jsNonEmpty f.name with
  | some n => jsToLower (jsOrStr att.filename "") == jsToLower n
  | none => true

/-- Substring clause, worded as in the spec: when a substring is
configured, the entry filename must contain it case-insensitively. -/
def specContainsOk (f : AttachmentFilterParams) (att : Attachment) : Bool :=
  match jsNonEmpty f.nameContains with
  | some c => strIncludes (jsToLower (jsOrStr att.filename "")) (jsToLower c)
  | none => true

/-- Pattern clause, worded as in the spec: when a pattern is configured,
it is evaluated as compiled with its configured flags over the entry
filename. -/
def specRegexOk (regexCompile : String → String → Option (String → Bool))
    (f : AttachmentFilterParams) (att : Attachment) : Bool :=
  match jsNonEmpty f.nameRegex with
  | some r =>
    match regexCompile r (jsOrStr f.nameRegexFlags "") with
    | some t => t (jsOrStr att.filename "")
    | none => false
  | none => true

/-- Filename-constraint conjunction, worded as in the spec: all
configured filename constraints must hold together. -/
def specFilenameOk (regexCompile : String → String → Option (String → Bool))
    (f : AttachmentFilterParams) (att : Attachment) : Bool :=
  specNameOk f att && specContainsOk f att && specRegexOk regexCompile f att

/-- Content-type constraint, worded as in the spec: when a non-empty
type list is configured, the declared type must case-insensitively
equal a listed type or, for a listed wildcard ending in `/*`, share
that type's prefix before the wildcard. -/
def specMimeOk (f : AttachmentFilterParams) (att : Attachment) : Bool :=
  match f.mimeTypes with
  | none => true
  | some l =>
    if l.isEmpty then true
    else
      l.any fun m =>
        let mime := jsToLower m
        let ct := jsOrStr (att.contentType.map jsToLower) ""
        if jsEndsWith mime "/*" then jsStartsWith ct (jsDropRight mime 2)
        else ct == mime

/-! ## Concrete instances used by witnesses and counterexamples -/

/-- A small PDF attachment. -/
def attA : Attachment :=
  ⟨some "a.pdf", some "application/pdf", ⟨[1, 2, 3], "abc"⟩, none, none, none⟩

/-- A second small PDF attachment. -/
def attB : Attachment :=
  ⟨some "b.pdf", some "application/pdf", ⟨[4, 5], "de"⟩, none, none, none⟩

/-- A `image/png` attachment. -/
def attPng : Attachment :=
  ⟨some "pic.png", some "image/png", ⟨[1], "a"⟩, none, none, none⟩

/-- A `image/jpeg` attachment. -/
def attJpeg : Attachment :=
  ⟨some "pic.jpg", some "IMAGE/JPEG", ⟨[1], "a"⟩, none, none, none⟩

/-- A `application/json` attachment. -/
def attJson : Attachment :=
  ⟨some "data.json", some "application/json", ⟨[1], "a"⟩, none, none, none⟩

/-- A benign environment: connection and mailbox open succeed, every
uid fetch finds a two-attachment message, all writes succeed. -/
def envW : Env where
  regexCompile := fun _ _ => none
  connectErr := none
  openBoxErr := none
  search := fun v => .ok (if v = "a@b" then [7] else [])
  fetchRes := fun _ => .done true ⟨[9, 9], "raw"⟩
  parse := fun _ => .ok { attachments := [attA, attB] }
  htmlToText := fun s => s
  token := fun n => s!"tok{n}"
  write := fun _ _ => none

/-- Like `envW` but the write of the second drawn token fails. -/
def envWriteFail : Env :=
  { envW with write := fun path _ => if path = "/tmp/tok1-b.pdf" then some "disk full" else none }

/-- Like `envW` but opening the mailbox fails. -/
def envOpenFail : Env :=
  { envW with openBoxErr := some "NO box" }

/-- The `["image/*"]` content-type filter of the spec's example. -/
def fImg : AttachmentFilterParams := { mimeTypes := some ["image/*"] }

/-- The predicate `buildAttachmentPredicate` compiles from `fImg`. -/
def predImg : Attachment → Bool :=
  match buildAttachmentPredicate (fun _ _ => none) (some fImg) with
  | .ok p => p
  | .error _ => fun _ => false

/-- Result produced for `attA` when it is materialized with token 0. -/
def attAResult : AttachmentResult :=
  { filename := some "a.pdf", contentType := "application/pdf", size := 3,
    savedTo := some "/tmp/tok0-a.pdf" }

/-! ## Theorems -/

/-- Claim C2: for a handle-kind (`'uid'`) identifier whose string does
not parse as a base-10 number, or parses to a non-positive value,
both batch operations push a `found: false` Result Record for it and
issue no store access at all for that identifier (the effect trace of
its iteration is empty — no search, no fetch). -/
theorem uidKindInvalidNeverTouchesStore (env : Env) (pred : Attachment → Bool)
    (mailbox : String) (ctr : Nat) (id : String)
    (h : jsParseInt10 id = none ∨ ∃ v, jsParseInt10 id = some v ∧ v ≤ 0) :
    processDownloadId env pred .uid mailbox ctr id =
      (notFoundRecord id .uid mailbox, [], ctr) ∧
    processPeekId env .uid mailbox id = (peekNotFoundRecord id .uid mailbox, []) ∧
    (notFoundRecord id .uid mailbox).found = false ∧
    (peekNotFoundRecord id .uid mailbox).found = false := by
  have hp : parsePositiveUid id = none := by
    rcases h with h | ⟨v, hv, hle⟩
    · simp [parsePositiveUid, h]
    · simp [parsePositiveUid, hv]
      omega
  refine ⟨?_, ?_, rfl, rfl⟩
  · simp [processDownloadId, hp]
  · simp [processPeekId, hp]

/-- Witness for C2 at the concrete identifier `"abc"`. -/
theorem uidKindInvalidNeverTouchesStore_witness :
    processDownloadId envW (fun _ => true) .uid "INBOX" 0 "abc" =
      (notFoundRecord "abc" .uid "INBOX", [], 0) ∧
    processPeekId envW .uid "INBOX" "abc" =
      (peekNotFoundRecord "abc" .uid "INBOX", []) := by
  have h := uidKindInvalidNeverTouchesStore envW (fun _ => true) "INBOX" 0 "abc"
    (Or.inl (by decide))
  exact ⟨h.1, h.2.1⟩

/-- Invariant of the fetch event fold: a run of message events extends
the chunk accumulator in delivery order and records that a message was
found, without settling the promise. -/
theorem fetchFold_messages (uid : Nat) (msgs : List (List Chunk)) :
    ∀ st : FetchSt, st.settled = none →
      List.foldl (fetchStep uid) st (msgs.map FetchEvent.message) =
        ⟨st.chunks ++ (msgs.flatten).map Chunk.toBytes,
         st.found || !msgs.isEmpty, none⟩ := by
  induction msgs with
  | nil =>
    intro st h
    cases st with
    | mk chunks found settled => simp_all
  | cons m rest ih =>
    intro st h
    have hstep : fetchStep uid st (FetchEvent.message m) =
        ⟨st.chunks ++ m.map Chunk.toBytes, true, none⟩ := by
      cases st with
      | mk chunks found settled =>
        cases settled with
        | none => simp [fetchStep]
        | some r => simp at h
    simp only [List.map_cons, List.foldl_cons, hstep]
    rw [ih ⟨st.chunks ++ m.map Chunk.toBytes, true, none⟩ rfl]
    simp [List.append_assoc]

/-- Claim C6: `fetchRawByUid` concatenates the body chunks of all
message events in delivery order into one byte buffer, coercing every
chunk (Buffer or not) byte-for-byte; a terminal end event with zero
message events settles the promise with the not-found error, a terminal
end event after at least one message event settles it with the
accumulated bytes, and a terminal error event settles it with that
transport error regardless of what was found. -/
theorem fetchRawAccumulation (uid : Nat) (msgs : List (List Chunk)) :
    (∀ e, fetchRawByUid uid
        (msgs.map FetchEvent.message ++ [FetchEvent.fetchError e]) =
        some (.error e)) ∧
    fetchRawByUid uid (msgs.map FetchEvent.message ++ [FetchEvent.fetchEnd]) =
      (if msgs.isEmpty then
        some (.error s!"Message not found for UID: {uid}")
       else some (.ok ((msgs.flatten).map Chunk.toBytes).flatten)) := by
  have hfold := fetchFold_messages uid msgs ⟨[], false, none⟩ rfl
  constructor
  · intro e
    rw [fetchRawByUid, List.foldl_append, hfold]
    simp [fetchStep]
  · rw [fetchRawByUid, List.foldl_append, hfold]
    cases hm : msgs.isEmpty with
    | true => simp [fetchStep, hm]
    | false => simp [fetchStep, hm]

/-- Candidate loop, all-miss case: every candidate is searched, in
order, and resolution returns no uid. -/
theorem resolveCandidates_miss (sf : String → List Nat) (l : List String)
    (h : ∀ x ∈ l, sf x = []) :
    resolveCandidates (fun s => .ok (sf s)) l =
      (.ok none, l.map (Effect.search "MESSAGE-ID")) := by
  induction l with
  | nil => simp [resolveCandidates]
  | cons c rest ih =>
    have hc : sf c = [] := h c (by simp)
    have hrest : ∀ x ∈ rest, sf x = [] := fun x hx => h x (by simp [hx])
    simp [resolveCandidates, hc, ih hrest]

/-- Candidate loop, first-hit case: the candidates before the first hit
are each searched once, the hit candidate is searched, its first match
is returned, and no later candidate is touched. -/
theorem resolveCandidates_hit (sf : String → List Nat) (pre : List String)
    (c : String) (post : List String) (u : Nat) (us : List Nat)
    (hpre : ∀ x ∈ pre, sf x = []) (hc : sf c = u :: us) :
    resolveCandidates (fun s => .ok (sf s)) (pre ++ c :: post) =
      (.ok (some u), (pre ++ [c]).map (Effect.search "MESSAGE-ID")) := by
  induction pre with
  | nil => simp [resolveCandidates, hc]
  | cons p ps ih =>
    have hp : sf p = [] := hpre p (by simp)
    have hps : ∀ x ∈ ps, sf x = [] := fun x hx => hpre x (by simp [hx])
    simp [resolveCandidates, hp, ih hps]

/-- Claim C5: address-kind resolution derives its candidate list by
bracket-normalization of the trimmed input — `[bracketed, stripped]`
when the input is bracket-delimited (the stripped form only when
stripping leaves content), `[bracketed-form, raw-form]` otherwise —
then issues one `MESSAGE-ID` header search per candidate in order,
stops at the first candidate with at least one match and returns that
candidate's first match, and yields no uid only after every candidate
missed. -/
theorem messageIdResolutionOrder (sf : String → List Nat) (id : String) :
    ((jsStartsWith (jsTrim id) "<" && jsEndsWith (jsTrim id) ">") = true →
       buildMessageIdCandidates id =
         (if jsSliceInner (jsTrim id) == "" then [jsTrim id]
          else [jsTrim id, jsSliceInner (jsTrim id)])) ∧
    (jsTrim id ≠ "" →
       (jsStartsWith (jsTrim id) "<" && jsEndsWith (jsTrim id) ">") = false →
       buildMessageIdCandidates id = ["<" ++ jsTrim id ++ ">", jsTrim id]) ∧
    (∀ pre c post u us, buildMessageIdCandidates id = pre ++ c :: post →
       (∀ x ∈ pre, sf x = []) → sf c = u :: us →
       resolveUidForMessageId (fun s => .ok (sf s)) id =
         (.ok (some u), (pre ++ [c]).map (Effect.search "MESSAGE-ID"))) ∧
    ((∀ x ∈ buildMessageIdCandidates id, sf x = []) →
       resolveUidForMessageId (fun s => .ok (sf s)) id =
         (.ok none,
          (buildMessageIdCandidates id).map (Effect.search "MESSAGE-ID"))) := by
  refine ⟨?_, ?_, ?_, ?_⟩
  · intro hbr
    have hne : (jsTrim id == "") = false := by
      cases he : (jsTrim id == "") with
      | false => rfl
      | true =>
        exfalso
        have h0 : jsTrim id = "" := by simpa using he
        rw [h0] at hbr
        exact absurd hbr (by decide)
    rw [buildMessageIdCandidates]
    simp [hne, hbr]
  · intro hne hbr
    rw [buildMessageIdCandidates]
    have hne' : (jsTrim id == "") = false := by simpa using hne
    simp [hne', hbr]
  · intro pre c post u us hcand hpre hc
    rw [resolveUidForMessageId, hcand]
    exact resolveCandidates_hit sf pre c post u us hpre hc
  · intro h
    rw [resolveUidForMessageId]
    exact resolveCandidates_miss sf _ h

/-- Witness for C5: the unbracketed input `"a@b"` is searched first as
`"<a@b>"` (miss) and then as `"a@b"` (hit with uid 7). -/
theorem messageIdResolutionOrder_witness :
    resolveUidForMessageId
        (fun s => .ok (if s = "a@b" then [7] else [])) "a@b" =
      (.ok (some 7),
       [.search "MESSAGE-ID" "<a@b>", .search "MESSAGE-ID" "a@b"]) :=
  (messageIdResolutionOrder (fun s => if s = "a@b" then [7] else []) "a@b").2.2.1
    ["<a@b>"] "a@b" [] 7 [] (by decide) (by decide) (by decide)

/-- The per-uid download pipeline labels its record with the input
identifier, whatever happens. -/
theorem processWithUid_id (env : Env) (pred : Attachment → Bool) (idType : IdType)
    (mailbox : String) (ctr : Nat) (id : String) (uidN : Nat) :
    (processWithUid env pred idType mailbox ctr id uidN).1.id = id := by
  cases hf : env.fetchRes uidN with
  | fetchErr e => simp [processWithUid, hf, failRecord]
  | done found raw =>
    cases found with
    | false => simp [processWithUid, hf, failRecord]
    | true =>
      cases hp : env.parse raw.bytes with
      | error e => simp [processWithUid, hf, hp, failRecord]
      | ok mail =>
        cases hl : processAttachmentsLoop env uidN ctr (mail.attachments.filter pred) with
        | mk res rest =>
          cases res with
          | error e => simp [processWithUid, hf, hp, hl, failRecord]
          | ok rs => simp [processWithUid, hf, hp, hl]

/-- Each download iteration labels its record with the input identifier. -/
theorem processDownloadId_id (env : Env) (pred : Attachment → Bool) (idType : IdType)
    (mailbox : String) (ctr : Nat) (id : String) :
    (processDownloadId env pred idType mailbox ctr id).1.id = id := by
  cases idType with
  | uid =>
    cases hp : parsePositiveUid id with
    | none => simp [processDownloadId, hp, notFoundRecord]
    | some uidN => simp [processDownloadId, hp, processWithUid_id]
  | messageId =>
    cases hr : resolveUidForMessageId env.search id with
    | mk res effs =>
      cases res with
      | error e => simp [processDownloadId, hr, failRecord]
      | ok o =>
        cases o with
        | none => simp [processDownloadId, hr, notFoundRecord]
        | some uidN => simp [processDownloadId, hr, processWithUid_id]

/-- The per-uid peek pipeline labels its record with the input
identifier, whatever happens. -/
theorem peekWithUid_id (env : Env) (idType : IdType) (mailbox : String)
    (id : String) (uidN : Nat) :
    (peekWithUid env idType mailbox id uidN).1.id = id := by
  cases hf : env.fetchRes uidN with
  | fetchErr e => simp [peekWithUid, hf, peekFailRecord]
  | done found raw =>
    cases found with
    | false => simp [peekWithUid, hf, peekFailRecord]
    | true =>
      cases hp : env.parse raw.bytes with
      | error e => simp [peekWithUid, hf, hp, peekFailRecord]
      | ok mail => simp [peekWithUid, hf, hp]

/-- Each peek iteration labels its record with the input identifier. -/
theorem processPeekId_id (env : Env) (idType : IdType) (mailbox : String)
    (id : String) :
    (processPeekId env idType mailbox id).1.id = id := by
  cases idType with
  | uid =>
    cases hp : parsePositiveUid id with
    | none => simp [processPeekId, hp, peekNotFoundRecord]
    | some uidN => simp [processPeekId, hp, peekWithUid_id]
  | messageId =>
    cases hr : resolveUidForMessageId env.search id with
    | mk res effs =>
      cases res with
      | error e => simp [processPeekId, hr, peekFailRecord]
      | ok o =>
        cases o with
        | none => simp [processPeekId, hr, peekNotFoundRecord]
        | some uidN => simp [processPeekId, hr, peekWithUid_id]

/-- The download batch loop emits exactly one record per identifier, in
input order. -/
theorem downloadBatchLoop_ids (env : Env) (pred : Attachment → Bool)
    (idType : IdType) (mailbox : String) :
    ∀ ctr ids, ((downloadBatchLoop env pred idType mailbox ctr ids).1.map (·.id)) = ids := by
  intro ctr ids
  induction ids generalizing ctr with
  | nil => simp [downloadBatchLoop]
  | cons id rest ih => simp [downloadBatchLoop, processDownloadId_id, ih]

/-- The peek batch loop emits exactly one record per identifier, in
input order. -/
theorem peekBatchLoop_ids (env : Env) (idType : IdType) (mailbox : String) :
    ∀ ids, ((peekBatchLoop env idType mailbox ids).1.map (·.id)) = ids := by
  intro ids
  induction ids with
  | nil => simp [peekBatchLoop]
  | cons id rest ih => simp [peekBatchLoop, processPeekId_id, ih]

/-- Claim C1: once the mailbox is open, each batch operation resolves
(never rejects) with exactly one Result Record per input identifier, in
input order — whatever per-identifier resolution misses, fetch errors
or decode errors the environment produces. -/
theorem batchOneRecordPerIdentifier (env : Env) (messageIds : StrOrList)
    (idType : IdType) (filter : Option AttachmentFilterParams) (mailbox : String)
    (pred : Attachment → Bool)
    (hpred : buildAttachmentPredicate env.regexCompile filter = .ok pred)
    (hconn : env.connectErr = none) (hopen : env.openBoxErr = none) :
    resultIds (downloadAttachments env messageIds idType filter mailbox).1 =
      some (normalizeMessageIds messageIds) ∧
    peekResultIds (peekMessages env messageIds idType mailbox).1 =
      some (normalizeMessageIds messageIds) := by
  constructor
  · simp [downloadAttachments, hpred, hconn, hopen, resultIds, downloadBatchLoop_ids]
  · simp [peekMessages, hconn, hopen, peekResultIds, peekBatchLoop_ids]

/-- Witness for C1: a two-identifier batch where the second identifier
is invalid still yields two records, in order, for both operations. -/
theorem batchOneRecordPerIdentifier_witness :
    resultIds (downloadAttachments envW (.many ["3", "abc"]) .uid none "INBOX").1 =
      some ["3", "abc"] ∧
    peekResultIds (peekMessages envW (.many ["3", "abc"]) .uid "INBOX").1 =
      some ["3", "abc"] :=
  batchOneRecordPerIdentifier envW (.many ["3", "abc"]) .uid none "INBOX"
    (fun _ => true) rfl rfl rfl

/-- Last element of a two-cons-append effect list. -/
theorem getLast?_cons_cons_append (a b : Effect) (l : List Effect) (x : Effect) :
    (a :: b :: l ++ [x]).getLast? = some x := by
  rw [show a :: b :: l ++ [x] = (a :: b :: l) ++ [x] by simp]
  exact List.getLast?_concat _

/-- Claim C9 counterexample: with the connection established (the
connect effect was issued) and the mailbox open failing, both batch
operations reject without ever closing the connection — no close effect
occurs on this exit path. -/
theorem openBoxFailureLeavesSessionOpen :
    downloadAttachments envOpenFail (.one "3") .uid none "INBOX" =
      (.error "NO box", [.connect, .openBox "INBOX" true]) ∧
    Effect.connect ∈ (downloadAttachments envOpenFail (.one "3") .uid none "INBOX").2 ∧
    Effect.closeConn ∉ (downloadAttachments envOpenFail (.one "3") .uid none "INBOX").2 ∧
    peekMessages envOpenFail (.one "3") .uid "INBOX" =
      (.error "NO box", [.connect, .openBox "INBOX" true]) := by
  decide

/-- Claim C9 (amended): after the connection is established, a batch
operation closes the session as its final effect before resolving when
the mailbox opened (normal completion, whatever the per-identifier
outcomes); but when opening the mailbox fails, the operation rejects
with that error without closing the connection. -/
theorem sessionCloseOnExit (env : Env) (messageIds : StrOrList) (idType : IdType)
    (filter : Option AttachmentFilterParams) (mailbox : String)
    (pred : Attachment → Bool)
    (hpred : buildAttachmentPredicate env.regexCompile filter = .ok pred)
    (hconn : env.connectErr = none) :
    (env.openBoxErr = none →
       ((downloadAttachments env messageIds idType filter mailbox).2.getLast? =
          some .closeConn ∧
        (peekMessages env messageIds idType mailbox).2.getLast? =
          some .closeConn)) ∧
    (∀ e, env.openBoxErr = some e →
       ((downloadAttachments env messageIds idType filter mailbox).1 = .error e ∧
        Effect.closeConn ∉ (downloadAttachments env messageIds idType filter mailbox).2 ∧
        (peekMessages env messageIds idType mailbox).1 = .error e ∧
        Effect.closeConn ∉ (peekMessages env messageIds idType mailbox).2)) := by
  constructor
  · intro hopen
    constructor
    · simp only [downloadAttachments, hpred, hconn, hopen]
      exact getLast?_cons_cons_append _ _ _ _
    · simp only [peekMessages, hconn, hopen]
      exact getLast?_cons_cons_append _ _ _ _
  · intro e hopen
    refine ⟨?_, ?_, ?_, ?_⟩ <;>
      simp [downloadAttachments, peekMessages, hpred, hconn, hopen]

/-- Witness for C9's amended claim at concrete environments: normal
completion ends with a close effect; an open-mailbox failure rejects
with no close effect in the trace. -/
theorem sessionCloseOnExit_witness :
    (downloadAttachments envW (.one "3") .uid none "INBOX").2.getLast? =
      some Effect.closeConn ∧
    (downloadAttachments envOpenFail (.one "3") .uid none "INBOX").1 =
      .error "NO box" ∧
    Effect.closeConn ∉ (downloadAttachments envOpenFail (.one "3") .uid none "INBOX").2 := by
  refine ⟨((sessionCloseOnExit envW (.one "3") .uid none "INBOX"
      (fun _ => true) rfl rfl).1 rfl).1, ?_, ?_⟩
  · exact ((sessionCloseOnExit envOpenFail (.one "3") .uid none "INBOX"
      (fun _ => true) rfl rfl).2 "NO box" rfl).1
  · exact ((sessionCloseOnExit envOpenFail (.one "3") .uid none "INBOX"
      (fun _ => true) rfl rfl).2 "NO box" rfl).2.1

/-- Claim C3 counterexample: in a batch whose message has two matching
attachments and only the second write fails, the first — successfully
written — attachment does not appear in the message's Result Record:
the whole record becomes the failure record with an empty attachment
list, refuting that only the failing attachment's Result fails. -/
theorem writeFailureDropsSiblings :
    (downloadAttachments envWriteFail (.one "5") .uid none "INBOX").1 =
      .ok [failRecord "5" .uid "INBOX" "disk full"] ∧
    (downloadAttachments envWriteFail (.one "5") .uid none "INBOX").2 =
      [.connect, .openBox "INBOX" true, .fetch [5] "" false false,
       .writeFile "/tmp/tok0-a.pdf" [1, 2, 3],
       .writeFile "/tmp/tok1-b.pdf" [4, 5], .closeConn] := by
  decide

/-- Claim C3 (amended): a failing materialization write fails that
identifier's whole Result Record — found:false carrying the write
error, with no attachments listed (already-materialized siblings are
dropped) — while the batch is unaffected: it still resolves with one
record per identifier in input order. -/
theorem writeFailureFailsWholeRecord (env : Env) (pred : Attachment → Bool)
    (idType : IdType) (mailbox : String) (ctr : Nat) (id : String) (uidN : Nat)
    (raw : JsBuffer) (mail : ParsedMail) (e : String) (weffs : List Effect)
    (c : Nat) (messageIds : StrOrList) (filter : Option AttachmentFilterParams)
    (hfetch : env.fetchRes uidN = .done true raw)
    (hparse : env.parse raw.bytes = .ok mail)
    (hloop : processAttachmentsLoop env uidN ctr (mail.attachments.filter pred) =
      (.error e, weffs, c))
    (hpred : buildAttachmentPredicate env.regexCompile filter = .ok pred)
    (hconn : env.connectErr = none) (hopen : env.openBoxErr = none) :
    processWithUid env pred idType mailbox ctr id uidN =
      (failRecord id idType mailbox e,
       Effect.fetch [uidN] "" false false :: weffs, c) ∧
    (failRecord id idType mailbox e).attachments = [] ∧
    resultIds (downloadAttachments env messageIds idType filter mailbox).1 =
      some (normalizeMessageIds messageIds) := by
  refine ⟨?_, rfl, ?_⟩
  · simp [processWithUid, hfetch, hparse, hloop]
  · simp [downloadAttachments, hpred, hconn, hopen, resultIds, downloadBatchLoop_ids]

/-- Witness for C3's amended claim: with the second of two writes
failing, the identifier's record is the failure record and the batch
still yields its single record. -/
theorem writeFailureFailsWholeRecord_witness :
    processWithUid envWriteFail (fun _ => true) .uid "INBOX" 0 "5" 5 =
      (failRecord "5" .uid "INBOX" "disk full",
       [Effect.fetch [5] "" false false,
        .writeFile "/tmp/tok0-a.pdf" [1, 2, 3],
        .writeFile "/tmp/tok1-b.pdf" [4, 5]], 2) ∧
    (failRecord "5" .uid "INBOX" "disk full").attachments = [] ∧
    resultIds (downloadAttachments envWriteFail (.one "5") .uid none "INBOX").1 =
      some ["5"] :=
  writeFailureFailsWholeRecord envWriteFail (fun _ => true) .uid "INBOX" 0 "5" 5
    ⟨[9, 9], "raw"⟩ { attachments := [attA, attB] } "disk full"
    [.writeFile "/tmp/tok0-a.pdf" [1, 2, 3], .writeFile "/tmp/tok1-b.pdf" [4, 5]] 2
    (.one "5") none rfl rfl (by decide) rfl rfl rfl

/-- Effects of a raw-message materialization are a single write. -/
theorem writeRawToTemp_effects (env : Env) (ctr : Nat) (raw : JsBuffer) (uidN : Nat) :
    ∀ e ∈ (writeRawToTemp env ctr raw uidN).2.1, ∃ p d, e = .writeFile p d := by
  intro e he
  rw [writeRawToTemp] at he
  split at he <;> (simp at he; exact ⟨_, _, he⟩)

/-- Effects of the finalize continuation are writes only. -/
theorem finalizeContent_effects (env : Env) (id : String) (uidN : Nat)
    (format : MsgFormat) (save : Bool) (mailbox : String) (raw : JsBuffer) :
    ∀ e ∈ (finalizeContent env id uidN format save mailbox raw).2,
      ∃ p d, e = .writeFile p d := by
  intro e he
  simp only [finalizeContent] at he
  split at he
  · simp at he
  · split at he
    · split at he
      · next heq => exact writeRawToTemp_effects env 0 raw uidN e (heq ▸ he)
      · next heq => exact writeRawToTemp_effects env 0 raw uidN e (heq ▸ he)
    · simp at he

/-- Claim C10: the single-identifier content path accepts only
handle-kind identifiers: an id that does not parse as a positive
base-10 integer makes `getMessageContent` throw `Invalid message id`
with an empty effect trace — before any connection is created — and no
invocation of `getMessageContent` ever issues a header search, so
address-form identifiers are never resolved on this path. -/
theorem getMessageRequiresNumericHandle (env : Env) (id : String)
    (format : MsgFormat) (save : Bool) (mailbox : String)
    (h : jsParseInt10 id = none ∨ ∃ v, jsParseInt10 id = some v ∧ v ≤ 0) :
    (getMessageContent env id format save mailbox).1 =
      .error s!"Invalid message id: {id}" ∧
    (getMessageContent env id format save mailbox).2 = [] ∧
    (∀ env2 id2 f2 s2 m2 hdr v,
       Effect.search hdr v ∉ (getMessageContent env2 id2 f2 s2 m2).2) := by
  have hp : parsePositiveUid id = none := by
    rcases h with h | ⟨v, hv, hle⟩
    · simp [parsePositiveUid, h]
    · simp [parsePositiveUid, hv]
      omega
  refine ⟨?_, ?_, ?_⟩
  · simp [getMessageContent, hp]
  · simp [getMessageContent, hp]
  · intro env2 id2 f2 s2 m2 hdr v hmem
    simp only [getMessageContent] at hmem
    split at hmem
    · simp at hmem
    · split at hmem
      · simp at hmem
      · split at hmem
        · simp at hmem
        · split at hmem
          · simp at hmem
          · split at hmem
            · simp at hmem
            · rcases List.mem_append.mp hmem with hbase | hfin
              · simp at hbase
              · rcases List.mem_cons.mp hfin with hclose | hfin2
                · simp at hclose
                · obtain ⟨p, d, hpd⟩ :=
                    finalizeContent_effects env2 id2 _ f2 s2 m2 _ _ hfin2
                  simp at hpd

/-- Witness for C10 at the address-form identifier
`"<abc@example.com>"`. -/
theorem getMessageRequiresNumericHandle_witness :
    (getMessageContent envW "<abc@example.com>" .html false "INBOX").1 =
      .error "Invalid message id: <abc@example.com>" ∧
    (getMessageContent envW "<abc@example.com>" .html false "INBOX").2 = [] := by
  have h := getMessageRequiresNumericHandle envW "<abc@example.com>" .html false
    "INBOX" (Or.inl (by decide))
  exact ⟨h.1, h.2.1⟩

/-- The placement guard in Boolean normal form. -/
theorem ifNotAndGuard (a b c d : Bool) :
    (if !a && !b && !c then false else d) = ((a || b || c) && d) := by
  cases a <;> cases b <;> cases c <;> cases d <;> rfl

/-- Claim C4: an attachment is inlined exactly when its declared type
belongs to an eligible family — `text/*`, the markdown sub-family, or
the structured-text allow-list — and its decoded-as-UTF-8 textual
length is under 1000 characters; `application/pdf` is never inlined,
and the per-attachment processing returns inline content exactly when
the placement policy says inline, a saved path exactly when it says
materialize. -/
theorem inlinePlacementPolicy :
    (∀ ct content, shouldInlineTextAttachment ct content = true ↔
       ((jsStartsWith (jsToLower ct) "text/" = true ∨
         jsStartsWith (jsToLower ct) "text/markdown" = true ∨
         jsStartsWith (jsToLower ct) "text/x-markdown" = true ∨
         jsStartsWith (jsToLower ct) "text/md" = true ∨
         jsToLower ct ∈ ["application/json", "application/xml", "text/xml",
                         "application/yaml", "application/x-yaml"]) ∧
        content.utf8.length < 1000)) ∧
    (∀ content, shouldInlineTextAttachment "application/pdf" content = false) ∧
    (∀ env uidN ctr att r effs c,
       processAttachment env uidN ctr att = (.ok r, effs, c) →
       ((r.inlineContent.isSome = true ↔
          shouldInlineTextAttachment
            (jsOrStr att.contentType "application/octet-stream") att.content = true) ∧
        (r.savedTo.isSome = true ↔
          shouldInlineTextAttachment
            (jsOrStr att.contentType "application/octet-stream") att.content = false))) := by
  refine ⟨?_, ?_, ?_⟩
  · intro ct content
    simp only [shouldInlineTextAttachment, ifNotAndGuard]
    simp only [Bool.and_eq_true, Bool.or_eq_true, decide_eq_true_eq, beq_iff_eq,
      List.mem_cons, List.not_mem_nil, or_false, List.mem_singleton]
    tauto
  · intro content
    rfl
  · intro env uidN ctr att r effs c h
    simp only [processAttachment] at h
    split at h
    · next hinl =>
      simp only [Prod.mk.injEq, Except.ok.injEq] at h
      obtain ⟨hr, _, _⟩ := h
      subst hr
      simp [hinl]
    · next hninl =>
      have hfalse : shouldInlineTextAttachment
          (jsOrStr att.contentType "application/octet-stream") att.content = false := by
        simpa using hninl
      split at h
      · simp at h
      · simp only [Prod.mk.injEq, Except.ok.injEq] at h
        obtain ⟨hr, _, _⟩ := h
        subst hr
        simp [hfalse]

/-- Witness for C4: the PDF attachment `attA` is materialized, not
inlined. -/
theorem inlinePlacementPolicy_witness :
    (attAResult.inlineContent.isSome = true ↔
      shouldInlineTextAttachment
        (jsOrStr attA.contentType "application/octet-stream") attA.content = true) ∧
    (attAResult.savedTo.isSome = true ↔
      shouldInlineTextAttachment
        (jsOrStr attA.contentType "application/octet-stream") attA.content = false) :=
  inlinePlacementPolicy.2.2 envW 5 0 attA attAResult
    [.writeFile "/tmp/tok0-a.pdf" [1, 2, 3]] 1 (by decide)

/-- ASCII lowering preserves emptiness. -/
theorem strMk_cons_beq_empty (c : Char) (cs : List Char) :
    ((String.mk (c :: cs)) == "") = false := by
  rw [beq_eq_false_iff_ne]
  intro hcontra
  have h0 : (c :: cs) = ([] : List Char) := congrArg String.data hcontra
  exact absurd h0 (by simp)

/-- `jsToLower` preserves emptiness of a string. -/
theorem jsToLower_beq_empty (s : String) : (jsToLower s == "") = (s == "") := by
  cases s with
  | mk data =>
    cases data with
    | nil => decide
    | cons c cs =>
      rw [show jsToLower ⟨c :: cs⟩ = ⟨Char.toLower c :: cs.map Char.toLower⟩ from rfl]
      rw [strMk_cons_beq_empty, strMk_cons_beq_empty]

/-- The if-guarded filename block in Boolean normal form. -/
theorem chainGuard (a b c x y z : Bool) :
    (if a || b || c then
       if a && !x then false
       else if b && !y then false
       else if c && !z then false
       else true
     else true) = ((!a || x) && (!b || y) && (!c || z)) := by
  cases a <;> cases b <;> cases c <;> cases x <;> cases y <;> cases z <;> rfl

/-- The early-return guard in Boolean normal form. -/
theorem notGuard (n m : Bool) : (if !n then false else m) = (n && m) := by
  cases n <;> cases m <;> rfl

/-- The compiled exact-name clause agrees with the spec's wording. -/
theorem nameClause_eq (f : AttachmentFilterParams) (att : Attachment) :
    (!(jsTruthy (f.name.map jsToLower)) ||
     (jsToLower (jsOrStr att.filename "") == (f.name.map jsToLower).getD "")) =
    specNameOk f att := by
  cases hn : f.name with
  | none => simp [specNameOk, jsNonEmpty, jsTruthy, hn]
  | some n =>
    cases he : (n == "") with
    | true =>
      have h0 : n = "" := by simpa using he
      subst h0
      have h1 : jsTruthy (some (jsToLower "")) = false := by decide
      simp [h1, specNameOk, jsNonEmpty, hn]
    | false =>
      have h1 : jsTruthy (some (jsToLower n)) = true := by
        simp [jsTruthy, jsToLower_beq_empty, he]
      simp [h1, specNameOk, jsNonEmpty, hn, he]

/-- The compiled substring clause agrees with the spec's wording. -/
theorem containsClause_eq (f : AttachmentFilterParams) (att : Attachment) :
    (!(jsTruthy (f.nameContains.map jsToLower)) ||
     strIncludes (jsToLower (jsOrStr att.filename ""))
       ((f.nameContains.map jsToLower).getD "")) =
    specContainsOk f att := by
  cases hn : f.nameContains with
  | none => simp [specContainsOk, jsNonEmpty, jsTruthy, hn]
  | some n =>
    cases he : (n == "") with
    | true =>
      have h0 : n = "" := by simpa using he
      subst h0
      have h1 : jsTruthy (some (jsToLower "")) = false := by decide
      simp [h1, specContainsOk, jsNonEmpty, hn]
    | false =>
      have h1 : jsTruthy (some (jsToLower n)) = true := by
        simp [jsTruthy, jsToLower_beq_empty, he]
      simp [h1, specContainsOk, jsNonEmpty, hn, he]

/-- With no truthy pattern configured, the spec's pattern clause is
vacuous. -/
theorem regexClauseOff (rc : String → String → Option (String → Bool))
    (f : AttachmentFilterParams) (att : Attachment)
    (hreg : jsTruthy f.nameRegex = false) :
    specRegexOk rc f att = true := by
  cases hr : f.nameRegex with
  | none => simp [specRegexOk, hr, jsNonEmpty]
  | some r =>
    rw [hr] at hreg
    have he : (r == "") = true := by simpa [jsTruthy] using hreg
    simp [specRegexOk, hr, jsNonEmpty, he]

/-- With a compiled pattern, the spec's pattern clause is the compiled
test on the entry filename. -/
theorem regexClauseOn (rc : String → String → Option (String → Bool))
    (f : AttachmentFilterParams) (att : Attachment) (r : String)
    (t : String → Bool) (hr : f.nameRegex = some r) (he : (r == "") = false)
    (hc : rc r (jsOrStr f.nameRegexFlags "") = some t) :
    specRegexOk rc f att = t (jsOrStr att.filename "") := by
  simp [specRegexOk, hr, jsNonEmpty, he, hc]

/-- The compiled content-type block agrees with the spec's wording. -/
theorem mimeClause_eq (f : AttachmentFilterParams) (att : Attachment) :
    (if ((f.mimeTypes.getD []).map jsToLower).length > 0 then
       ((f.mimeTypes.getD []).map jsToLower).any fun mime =>
         if jsEndsWith mime "/*" then
           jsStartsWith (jsOrStr (att.contentType.map jsToLower) "")
             (jsDropRight mime 2)
         else jsOrStr (att.contentType.map jsToLower) "" == mime
     else true) = specMimeOk f att := by
  cases hm : f.mimeTypes with
  | none => simp [specMimeOk, hm]
  | some l =>
    cases l with
    | nil => simp [specMimeOk, hm]
    | cons m ms => simp [specMimeOk, hm, List.any_map, Function.comp_def]

/-- Claim C7: the predicate compiled from a filter selects the
order-preserving subsequence of the attachments, and holds of an entry
exactly when every configured filename constraint (exact name and
substring case-insensitively, pattern as compiled with its flags) and
the configured content-type constraint (case-insensitive equality, or
prefix match for a listed wildcard ending in `/*`) hold conjunctively. -/
theorem attachmentPredicateFaithful (rc : String → String → Option (String → Bool))
    (f : AttachmentFilterParams) (pred : Attachment → Bool)
    (hpred : buildAttachmentPredicate rc (some f) = .ok pred) :
    (∀ atts : List Attachment, (atts.filter pred).Sublist atts) ∧
    (∀ att, pred att = (specFilenameOk rc f att && specMimeOk f att)) := by
  refine ⟨fun atts => List.filter_sublist atts, ?_⟩
  intro att
  cases hreg : jsTruthy f.nameRegex with
  | false =>
    simp only [buildAttachmentPredicate, hreg, Bool.false_eq_true, if_false] at hpred
    rw [Except.ok.injEq] at hpred
    subst hpred
    simp only [notGuard, chainGuard, nameClause_eq, containsClause_eq, mimeClause_eq,
      Option.isSome_none, Bool.not_false, Bool.true_or, Bool.and_true,
      specFilenameOk, regexClauseOff rc f att hreg]
  | true =>
    cases hrn : f.nameRegex with
    | none =>
      rw [hrn] at hreg
      exact absurd hreg (by decide)
    | some r =>
      have he : (r == "") = false := by
        rw [hrn] at hreg
        simpa [jsTruthy] using hreg
      cases hc : rc (f.nameRegex.getD "") (jsOrStr f.nameRegexFlags "") with
      | none =>
        simp only [buildAttachmentPredicate, hreg, if_true, hc] at hpred
        exact absurd hpred (by simp)
      | some t =>
        simp only [buildAttachmentPredicate, hreg, if_true, hc] at hpred
        rw [Except.ok.injEq] at hpred
        subst hpred
        have hc' : rc r (jsOrStr f.nameRegexFlags "") = some t := by
          rw [hrn] at hc
          simpa using hc
        simp only [notGuard, chainGuard, nameClause_eq, containsClause_eq,
          mimeClause_eq, Option.isSome_some, Bool.not_true, Bool.false_or,
          Option.getD_some, specFilenameOk,
          regexClauseOn rc f att r t hrn he hc']

/-- Witness for C7 at the `["image/*"]` filter of the spec's example:
the compiled predicate agrees with the spec clauses on a `image/png`
entry, and concretely matches `image/png` and `IMAGE/JPEG` but not
`application/json`. -/
theorem attachmentPredicateFaithful_witness :
    predImg attPng =
      (specFilenameOk (fun _ _ => none) fImg attPng && specMimeOk fImg attPng) ∧
    predImg attPng = true ∧ predImg attJpeg = true ∧ predImg attJson = false :=
  ⟨(attachmentPredicateFaithful (fun _ _ => none) fImg predImg rfl).2 attPng,
   by decide, by decide, by decide⟩

/-- Attachment materialization only writes files (read-safe). -/
theorem writeAttachmentToTemp_readSafe (env : Env) (ctr : Nat) (content : JsBuffer)
    (filename uidStr : String) (res : Except String String) (effs : List Effect)
    (c : Nat)
    (hw : writeAttachmentToTemp env ctr content filename uidStr = (res, effs, c)) :
    ∀ e ∈ effs, e.readSafe = true := by
  intro e he
  rw [writeAttachmentToTemp] at hw
  split at hw <;>
    (injection hw with h1 h2
     injection h2 with h2 h3
     subst h2
     simp at he
     subst he
     rfl)

/-- Per-attachment processing is read-safe. -/
theorem processAttachment_readSafe (env : Env) (uidN : Nat) (ctr : Nat)
    (att : Attachment) :
    ∀ e ∈ (processAttachment env uidN ctr att).2.1, e.readSafe = true := by
  intro e he
  simp only [processAttachment] at he
  split at he
  · simp at he
  · split at he
    · rename_i e1 effs c heq
      exact writeAttachmentToTemp_readSafe _ _ _ _ _ _ _ _ heq e he
    · rename_i path effs c heq
      exact writeAttachmentToTemp_readSafe _ _ _ _ _ _ _ _ heq e he

/-- The attachment loop is read-safe. -/
theorem processAttachmentsLoop_readSafe (env : Env) (uidN : Nat) :
    ∀ ctr atts e, e ∈ (processAttachmentsLoop env uidN ctr atts).2.1 →
      e.readSafe = true := by
  intro ctr atts
  induction atts generalizing ctr with
  | nil => intro e he; simp [processAttachmentsLoop] at he
  | cons att rest ih =>
    intro e he
    simp only [processAttachmentsLoop] at he
    split at he
    · rename_i e1 effs c heq
      exact processAttachment_readSafe env uidN ctr att e (by rw [heq]; exact he)
    · rename_i r effs c heq
      split at he
      · rename_i e2 effs2 c2 heq2
        rcases List.mem_append.mp he with h1 | h2
        · exact processAttachment_readSafe env uidN ctr att e (by rw [heq]; exact h1)
        · exact ih c e (by rw [heq2]; exact h2)
      · rename_i rs effs2 c2 heq2
        rcases List.mem_append.mp he with h1 | h2
        · exact processAttachment_readSafe env uidN ctr att e (by rw [heq]; exact h1)
        · exact ih c e (by rw [heq2]; exact h2)

/-- The fetch→decode→classify pipeline is read-safe: its only fetch
requests the full body with `markSeen: false`. -/
theorem processWithUid_readSafe (env : Env) (pred : Attachment → Bool)
    (idType : IdType) (mailbox : String) (ctr : Nat) (id : String) (uidN : Nat) :
    ∀ e ∈ (processWithUid env pred idType mailbox ctr id uidN).2.1,
      e.readSafe = true := by
  intro e he
  simp only [processWithUid] at he
  split at he
  · simp at he; subst he; rfl
  · simp at he; subst he; rfl
  · split at he
    · simp at he; subst he; rfl
    · split at he
      · rename_i e2 weffs c heq
        rcases List.mem_cons.mp he with h1 | h2
        · subst h1; rfl
        · exact processAttachmentsLoop_readSafe env uidN ctr _ e (by rw [heq]; exact h2)
      · rename_i rs weffs c heq
        rcases List.mem_cons.mp he with h1 | h2
        · subst h1; rfl
        · exact processAttachmentsLoop_readSafe env uidN ctr _ e (by rw [heq]; exact h2)

/-- Header searches issued by candidate resolution are read-safe. -/
theorem resolveCandidates_readSafe (search : String → Except String (List Nat)) :
    ∀ l e, e ∈ (resolveCandidates search l).2 → e.readSafe = true := by
  intro l
  induction l with
  | nil => intro e he; simp [resolveCandidates] at he
  | cons c rest ih =>
    intro e he
    simp only [resolveCandidates] at he
    split at he
    · simp at he; subst he; rfl
    · rcases List.mem_cons.mp he with h1 | h2
      · subst h1; rfl
      · exact ih e h2
    · simp at he; subst he; rfl

/-- One download iteration is read-safe. -/
theorem processDownloadId_readSafe (env : Env) (pred : Attachment → Bool)
    (idType : IdType) (mailbox : String) (ctr : Nat) (id : String) :
    ∀ e ∈ (processDownloadId env pred idType mailbox ctr id).2.1,
      e.readSafe = true := by
  intro e he
  cases idType with
  | uid =>
    simp only [processDownloadId] at he
    split at he
    · simp at he
    · rename_i uidN heq
      exact processWithUid_readSafe env pred .uid mailbox ctr id uidN e he
  | messageId =>
    simp only [processDownloadId] at he
    split at he
    · rename_i e1 effs heq
      refine resolveCandidates_readSafe env.search (buildMessageIdCandidates id) e ?_
      rw [show (resolveCandidates env.search (buildMessageIdCandidates id)).2 = effs by
        rw [show resolveCandidates env.search (buildMessageIdCandidates id) =
          resolveUidForMessageId env.search id from rfl, heq]]
      exact he
    · rename_i effs heq
      refine resolveCandidates_readSafe env.search (buildMessageIdCandidates id) e ?_
      rw [show (resolveCandidates env.search (buildMessageIdCandidates id)).2 = effs by
        rw [show resolveCandidates env.search (buildMessageIdCandidates id) =
          resolveUidForMessageId env.search id from rfl, heq]]
      exact he
    · rename_i uidN effs heq
      rcases List.mem_append.mp he with h1 | h2
      · refine resolveCandidates_readSafe env.search (buildMessageIdCandidates id) e ?_
        rw [show (resolveCandidates env.search (buildMessageIdCandidates id)).2 = effs by
          rw [show resolveCandidates env.search (buildMessageIdCandidates id) =
            resolveUidForMessageId env.search id from rfl, heq]]
        exact h1
      · exact processWithUid_readSafe env pred .messageId mailbox ctr id uidN e h2

/-- The download batch loop is read-safe. -/
theorem downloadBatchLoop_readSafe (env : Env) (pred : Attachment → Bool)
    (idType : IdType) (mailbox : String) :
    ∀ ctr ids e, e ∈ (downloadBatchLoop env pred idType mailbox ctr ids).2.1 →
      e.readSafe = true := by
  intro ctr ids
  induction ids generalizing ctr with
  | nil => intro e he; simp [downloadBatchLoop] at he
  | cons id rest ih =>
    intro e he
    simp only [downloadBatchLoop] at he
    rcases List.mem_append.mp he with h1 | h2
    · exact processDownloadId_readSafe env pred idType mailbox ctr id e h1
    · exact ih _ e h2

/-- One peek iteration over a resolved uid is read-safe. -/
theorem peekWithUid_readSafe (env : Env) (idType : IdType) (mailbox : String)
    (id : String) (uidN : Nat) :
    ∀ e ∈ (peekWithUid env idType mailbox id uidN).2, e.readSafe = true := by
  intro e he
  simp only [peekWithUid] at he
  split at he
  · simp at he; subst he; rfl
  · simp at he; subst he; rfl
  · split at he
    · simp at he; subst he; rfl
    · simp at he; subst he; rfl

/-- One peek iteration is read-safe. -/
theorem processPeekId_readSafe (env : Env) (idType : IdType) (mailbox : String)
    (id : String) :
    ∀ e ∈ (processPeekId env idType mailbox id).2, e.readSafe = true := by
  intro e he
  cases idType with
  | uid =>
    simp only [processPeekId] at he
    split at he
    · simp at he
    · rename_i uidN heq
      exact peekWithUid_readSafe env .uid mailbox id uidN e he
  | messageId =>
    simp only [processPeekId] at he
    split at he
    · rename_i e1 effs heq
      refine resolveCandidates_readSafe env.search (buildMessageIdCandidates id) e ?_
      rw [show (resolveCandidates env.search (buildMessageIdCandidates id)).2 = effs by
        rw [show resolveCandidates env.search (buildMessageIdCandidates id) =
          resolveUidForMessageId env.search id from rfl, heq]]
      exact he
    · rename_i effs heq
      refine resolveCandidates_readSafe env.search (buildMessageIdCandidates id) e ?_
      rw [show (resolveCandidates env.search (buildMessageIdCandidates id)).2 = effs by
        rw [show resolveCandidates env.search (buildMessageIdCandidates id) =
          resolveUidForMessageId env.search id from rfl, heq]]
      exact he
    · rename_i uidN effs heq
      rcases List.mem_append.mp he with h1 | h2
      · refine resolveCandidates_readSafe env.search (buildMessageIdCandidates id) e ?_
        rw [show (resolveCandidates env.search (buildMessageIdCandidates id)).2 = effs by
          rw [show resolveCandidates env.search (buildMessageIdCandidates id) =
            resolveUidForMessageId env.search id from rfl, heq]]
        exact h1
      · exact peekWithUid_readSafe env .messageId mailbox id uidN e h2

/-- The peek batch loop is read-safe. -/
theorem peekBatchLoop_readSafe (env : Env) (idType : IdType) (mailbox : String) :
    ∀ ids e, e ∈ (peekBatchLoop env idType mailbox ids).2 → e.readSafe = true := by
  intro ids
  induction ids with
  | nil => intro e he; simp [peekBatchLoop] at he
  | cons id rest ih =>
    intro e he
    simp only [peekBatchLoop] at he
    rcases List.mem_append.mp he with h1 | h2
    · exact processPeekId_readSafe env idType mailbox id e h1
    · exact ih e h2

/-- Every effect of a downloadAttachments run is read-safe. -/
theorem downloadAttachments_readSafe (env : Env) (messageIds : StrOrList)
    (idType : IdType) (filter : Option AttachmentFilterParams) (mailbox : String) :
    ∀ e ∈ (downloadAttachments env messageIds idType filter mailbox).2,
      e.readSafe = true := by
  intro e he
  simp only [downloadAttachments] at he
  split at he
  · simp at he
  · split at he
    · simp at he; subst he; rfl
    · split at he
      · simp at he
        rcases he with h | h <;> (subst h; rfl)
      · rcases List.mem_cons.mp he with h1 | h2
        · subst h1; rfl
        · rcases List.mem_cons.mp h2 with h3 | h4
          · subst h3; rfl
          · rcases List.mem_append.mp h4 with h5 | h6
            · exact downloadBatchLoop_readSafe env _ idType mailbox 0 _ e h5
            · simp at h6; subst h6; rfl

/-- Every effect of a peekMessages run is read-safe. -/
theorem peekMessages_readSafe (env : Env) (messageIds : StrOrList)
    (idType : IdType) (mailbox : String) :
    ∀ e ∈ (peekMessages env messageIds idType mailbox).2, e.readSafe = true := by
  intro e he
  simp only [peekMessages] at he
  split at he
  · simp at he; subst he; rfl
  · split at he
    · simp at he
      rcases he with h | h <;> (subst h; rfl)
    · rcases List.mem_cons.mp he with h1 | h2
      · subst h1; rfl
      · rcases List.mem_cons.mp h2 with h3 | h4
        · subst h3; rfl
        · rcases List.mem_append.mp h4 with h5 | h6
          · exact peekBatchLoop_readSafe env idType mailbox _ e h5
          · simp at h6; subst h6; rfl

/-- Every effect of a getMessageContent run is read-safe. -/
theorem getMessageContent_readSafe (env : Env) (id : String) (format : MsgFormat)
    (save : Bool) (mailbox : String) :
    ∀ e ∈ (getMessageContent env id format save mailbox).2, e.readSafe = true := by
  intro e he
  simp only [getMessageContent] at he
  split at he
  · simp at he
  · split at he
    · simp at he; subst he; rfl
    · split at he
      · simp at he
        rcases he with h | h <;> (subst h; rfl)
      · split at he
        · simp at he
          rcases he with h | h | h <;> (subst h; rfl)
        · split at he
          · rcases List.mem_append.mp he with h1 | h2
            · simp at h1
              rcases h1 with h | h | h <;> (subst h; rfl)
            · simp at h2; subst h2; rfl
          · rcases List.mem_append.mp he with h1 | h2
            · simp at h1
              rcases h1 with h | h | h <;> (subst h; rfl)
            · rcases List.mem_cons.mp h2 with h3 | h4
              · subst h3; rfl
              · obtain ⟨p, d, hpd⟩ :=
                  finalizeContent_effects env id _ format save mailbox _ e h4
                subst hpd; rfl

/-- Claim C8: every store effect issued by downloadAttachments,
peekMessages and getMessageContent is read-safe — each fetch requests
the full raw body (`bodies: ''`) with `markSeen: false`, and each
mailbox open is read-only — so retrieval never changes a message's
seen status, including across repeated peeks of the same identifier. -/
theorem fetchesNeverMarkSeen (env : Env) (messageIds : StrOrList)
    (idType : IdType) (filter : Option AttachmentFilterParams) (mailbox : String)
    (id : String) (format : MsgFormat) (save : Bool) :
    (∀ e ∈ (downloadAttachments env messageIds idType filter mailbox).2,
       e.readSafe = true) ∧
    (∀ e ∈ (peekMessages env messageIds idType mailbox).2, e.readSafe = true) ∧
    (∀ e ∈ (getMessageContent env id format save mailbox).2, e.readSafe = true) :=
  ⟨downloadAttachments_readSafe env messageIds idType filter mailbox,
   peekMessages_readSafe env messageIds idType mailbox,
   getMessageContent_readSafe env id format save mailbox⟩

/-- Witness for C8: the concrete fetch issued for uid 3 in a
downloadAttachments run is read-safe. -/
theorem fetchesNeverMarkSeen_witness :
    Effect.readSafe (.fetch [3] "" false false) = true :=
  (fetchesNeverMarkSeen envW (.one "3") .uid none "INBOX" "3" .html false).1
    (.fetch [3] "" false false) (by decide)

end GmailMcp
